import Mathlib

/-!
Verification development for `scripts/paperbanana_lite.py`.

The definitions below are a shallow embedding of the agent functions and
the pipeline orchestrator of the source file.  Model responses, the
filesystem and subprocess outcomes are passed in explicitly as data, so
that every function is a pure, executable Lean definition whose branches
mirror the Python control flow line by line.
-/

set_option maxRecDepth 4096

/-! ## Critic results and the refinement loop (`critique`, `generate`) -/

/-- Result of `critique` (Python dict with keys `critic_suggestions`,
`revised_description`). -/
structure Critique where
  critic_suggestions : List String
  revised_description : Option String
deriving DecidableEq, Repr

/-- Python truthiness of a `str | None` value: `None` and `""` are falsy. -/
def truthyStr : Option String → Bool
  | none => false
  | some s => s ≠ ""

/-- `needs_revision = len(result["critic_suggestions"]) > 0` (line 1268). -/
def needs_revision (c : Critique) : Bool :=
  c.critic_suggestions.length > 0

/-- The loop-continuation test of line 1269:
`if needs_revision and crit["revised_description"]:`. -/
def continueCond (c : Critique) : Bool :=
  needs_revision c && truthyStr c.revised_description

/-- How one loop step of `generate` transforms `current_description`:
the revised description is adopted exactly when the line-1269 test holds,
otherwise the description is left unchanged. -/
def step_description (c : Critique) (d : String) : String :=
  if continueCond c then c.revised_description.getD "" else d

/-- Parsed critic model response: either a JSON-decode failure, or a JSON
object where each expected key may be absent (`none`). -/
inductive CriticResponse where
  | parseFailure : CriticResponse
  | parsed (critic_suggestions : Option (List String))
      (revised_description : Option String) : CriticResponse
deriving DecidableEq

/-- `critique` response handling (lines 1134-1142): on parse failure return
`{critic_suggestions: [], revised_description: None}`; otherwise
`data.get("critic_suggestions", [])` and `data.get("revised_description")`. -/
def critique : CriticResponse → Critique
  | CriticResponse.parseFailure => ⟨[], none⟩
  | CriticResponse.parsed cs rd => ⟨cs.getD [], rd⟩

/-- The Phase-2 `for i in range(iterations)` loop of `generate`
(lines 1235-1274), with the sequence of critic results supplied as an
oracle `crit` indexed by the 0-based loop variable.  The first component
models `final_image_path`: `some n` means the last rendered artifact is
`iter_{n}.png`; `none` means the loop body never ran and the variable is
still `None`.  The second component is the final `current_description`. -/
def refineAux (crit : Nat → Critique) : String → Nat → Nat → Option Nat × String
  | desc, _, 0 => (none, desc)
  | desc, i, rem + 1 =>
    if continueCond (crit i) then
      match rem with
      | 0 => (some (i + 1), (crit i).revised_description.getD "")
      | rem' + 1 =>
        refineAux crit ((crit i).revised_description.getD "") (i + 1) (rem' + 1)
    else
      (some (i + 1), desc)

/-- The refinement loop started at iteration 0 with `K = iterations`. -/
def generateLoop (crit : Nat → Critique) (desc : String) (K : Nat) :
    Option Nat × String :=
  refineAux crit desc 0 K

/-- Number of loop iterations actually executed, starting at index `i`
with `rem` iterations remaining. -/
def itersAux (crit : Nat → Critique) : Nat → Nat → Nat
  | _, 0 => 0
  | i, rem + 1 => if continueCond (crit i) then 1 + itersAux crit (i + 1) rem else 1

/-- The description in force after the first `j` loop steps starting at
index `i` (each step applies `step_description`). -/
def descFrom (crit : Nat → Critique) : String → Nat → Nat → String
  | d, _, 0 => d
  | d, i, j + 1 => descFrom crit (step_description (crit i) d) (i + 1) j

/-- `shutil.copy2(final_image_path, final_output)` (line 1278): copying
from `None` raises; otherwise the artifact of iteration `n` is copied. -/
def copy_final : Option Nat → Except Unit Nat
  | none => Except.error ()
  | some n => Except.ok n

/-- End-to-end Phase 2 plus the final copy: the index of the artifact
that becomes `final_output.png`, or an uncaught exception. -/
def generate_result (crit : Nat → Critique) (d : String) (K : Nat) :
    Except Unit Nat :=
  copy_final (generateLoop crit d K).1

/-- A critic oracle that always reports no issues (for concrete checks). -/
def noIssues : Nat → Critique := fun _ => ⟨[], none⟩

/-- A critic oracle that always complains but never supplies a revised
description (for concrete checks). -/
def complainNoRevision : Nat → Critique := fun _ => ⟨["fix"], none⟩

/-! ## Retrieval (`retrieve`, lines 892-943) -/

/-- A reference example / candidate (dict with keys `id`, `caption`,
`source_context`; the other keys play no role in `retrieve`). -/
structure Candidate where
  id : String
  caption : String
  source_context : String
deriving DecidableEq, Repr

/-- Parsed retriever model response: JSON-decode failure, or an object in
which each of the three alias keys may be absent (`none`) or hold a list. -/
inductive RetrieverResponse where
  | parseFailure : RetrieverResponse
  | parsed (selected_ids top_10_papers top_10_plots : Option (List String)) :
      RetrieverResponse
deriving DecidableEq

/-- One link of the Python `or` chain on line 926-931: a present,
non-empty list is truthy and wins; `None` and `[]` fall through. -/
def pyOrList (a : Option (List String)) (k : List String) : List String :=
  match a with
  | some (x :: xs) => x :: xs
  | _ => k

/-- The dict comprehension `{c["id"]: c for c in candidates}` (line 936):
on duplicate ids the last candidate wins. -/
def id_to_example (candidates : List Candidate) (eid : String) : Option Candidate :=
  candidates.reverse.find? (fun c => c.id == eid)

/-- `retrieve` (lines 892-943) with the model response passed in as data.
Returns the selected examples together with a flag recording whether the
model was called (`call_vlm` on line 921). -/
def retrieve (candidates : List Candidate) (num_examples : Nat)
    (response : RetrieverResponse) : List Candidate × Bool :=
  if candidates.isEmpty then
    ([], false)
  else if candidates.length ≤ num_examples then
    (candidates, false)
  else
    match response with
    | RetrieverResponse.parseFailure => (candidates.take num_examples, true)
    | RetrieverResponse.parsed a b c =>
      let selected_ids := pyOrList a (pyOrList b (pyOrList c []))
      let selected := selected_ids.filterMap (id_to_example candidates)
      (selected.take num_examples, true)

/-! ## Code extraction and the plot renderer
(`_extract_code`, `_execute_plot_code`, `_generate_plot`) -/

/-- The whitespace removed by Python `str.strip()`. -/
def isPySpace (c : Char) : Bool :=
  c = ' ' || c = '\t' || c = '\n' || c = '\r' || c = '\x0b' || c = '\x0c'

/-- Python `str.strip()` on a character list. -/
def pyStrip (s : List Char) : List Char :=
  ((s.dropWhile isPySpace).reverse.dropWhile isPySpace).reverse

/-- Index of the first occurrence of `pat` in `s`, as computed by Python
`s.find(pat)` / `s.index(pat)` (`none` models the `ValueError` of
`index`, and makes `pat in s` false). -/
def findSub (pat : List Char) : List Char → Option Nat
  | [] => if pat.isPrefixOf ([] : List Char) then some 0 else none
  | c :: rest =>
    if pat.isPrefixOf (c :: rest) then some 0
    else (findSub pat rest).map (· + 1)

/-- `pat` occurs in `s` at position `i`. -/
def occursAt (pat s : List Char) (i : Nat) : Bool :=
  pat.isPrefixOf (s.drop i)

/-- `_extract_code` (lines 1072-1082).  `Except.error ()` models the
uncaught `ValueError` raised by `response.index("```", start)` when no
closing fence follows the opening one. -/
def extract_code (response : List Char) : Except Unit (List Char) :=
  match findSub ("```python".toList) response with
  | some i =>
    match findSub ("```".toList) (response.drop (i + ("```python".toList).length)) with
    | some j =>
      Except.ok (pyStrip ((response.drop (i + ("```python".toList).length)).take j))
    | none => Except.error ()
  | none =>
    match findSub ("```".toList) response with
    | some i =>
      match findSub ("```".toList) (response.drop (i + 3)) with
      | some j => Except.ok (pyStrip ((response.drop (i + 3)).take j))
      | none => Except.error ()
    | none => Except.ok (pyStrip response)

/-- Outcome of the `subprocess.run` call in `_execute_plot_code`
(lines 1100-1112): a wall-clock timeout, or an exit with a return code,
together with whether the generated program left the output file. -/
inductive ExecOutcome where
  | timeout : ExecOutcome
  | exited (returncode : Int) (output_exists : Bool) : ExecOutcome
deriving DecidableEq

/-- `_execute_plot_code` (lines 1085-1114): `False` on timeout or
non-zero exit, else `Path(output_path).exists()`. -/
def execute_plot_code : ExecOutcome → Bool
  | ExecOutcome.timeout => false
  | ExecOutcome.exited rc ex => if rc ≠ 0 then false else ex

/-- An image file on disk: either one produced by the generated plot
code, or the blank placeholder `Image.new("RGB", (1024, 768),
color=(255, 255, 255))` of line 1066. -/
inductive Artifact where
  | executed : Artifact
  | placeholder (width height r g b : Nat) : Artifact
deriving DecidableEq

/-- The filesystem, as a map from paths to image files. -/
def FS : Type := String → Option Artifact

/-- `_generate_plot` (lines 1044-1069) with the model's code response and
the subprocess outcome passed in as data: extracts the code (an uncaught
`ValueError` propagates), runs it, and on failure writes the fixed-size
blank placeholder to `output_path`. -/
def generate_plot (code_response : List Char) (output_path : String)
    (exec : ExecOutcome) (fs : FS) : Except Unit FS :=
  match extract_code code_response with
  | Except.error e => Except.error e
  | Except.ok _ =>
    if execute_plot_code exec then
      Except.ok (fun p => if p = output_path then some Artifact.executed else fs p)
    else
      Except.ok (fun p =>
        if p = output_path then some (Artifact.placeholder 1024 768 255 255 255)
        else fs p)

/-! ## Lemmas about the refinement loop -/

/-- The loop computes: `final_image_path` is the index of the last executed
iteration (`none` for zero iterations) and `current_description` is the fold
of `step_description` over the executed iterations. -/
theorem refineAux_spec (crit : Nat → Critique) :
    ∀ (rem : Nat) (d : String) (i : Nat),
      refineAux crit d i rem =
        (if rem = 0 then (none : Option Nat) else some (i + itersAux crit i rem),
          descFrom crit d i (itersAux crit i rem)) := by
  intro rem
  induction rem with
  | zero =>
    intro d i
    simp [refineAux, itersAux, descFrom]
  | succ rem ih =>
    intro d i
    by_cases h : continueCond (crit i) = true
    · cases rem with
      | zero =>
        simp [refineAux, itersAux, descFrom, h, step_description]
      | succ rem' =>
        have hL : refineAux crit d i (rem' + 1 + 1)
            = refineAux crit ((crit i).revised_description.getD "") (i + 1) (rem' + 1) := by
          simp [refineAux, h]
        have hit : itersAux crit i (rem' + 1 + 1) = itersAux crit (i + 1) (rem' + 1) + 1 := by
          simp [itersAux, h, Nat.add_comm]
        have hd : descFrom crit d i (itersAux crit (i + 1) (rem' + 1) + 1)
            = descFrom crit ((crit i).revised_description.getD "") (i + 1)
                (itersAux crit (i + 1) (rem' + 1)) := by
          simp [descFrom, step_description, h]
        have harith : i + (itersAux crit (i + 1) (rem' + 1) + 1)
            = i + 1 + itersAux crit (i + 1) (rem' + 1) := by omega
        rw [hL, ih, hit, hd, harith]
        simp
    · have hL : refineAux crit d i (rem + 1) = (some (i + 1), d) := by
        rw [refineAux.eq_def]
        simp [h]
      have hit : itersAux crit i (rem + 1) = 1 := by
        simp [itersAux, h]
      have hd : descFrom crit d i 1 = d := by
        simp [descFrom, step_description, h]
      rw [hL, hit, hd]
      simp

/-- `generateLoop`, characterized by `itersAux` and `descFrom`. -/
theorem generateLoop_spec (crit : Nat → Critique) (d : String) (K : Nat) :
    generateLoop crit d K =
      (if K = 0 then (none : Option Nat) else some (itersAux crit 0 K),
        descFrom crit d 0 (itersAux crit 0 K)) := by
  simpa [generateLoop] using refineAux_spec crit K d 0

/-- The loop never runs more than the configured number of iterations. -/
theorem itersAux_le (crit : Nat → Critique) :
    ∀ (rem i : Nat), itersAux crit i rem ≤ rem := by
  intro rem
  induction rem with
  | zero =>
    intro i
    simp [itersAux]
  | succ rem ih =>
    intro i
    by_cases h : continueCond (crit i) = true
    · have := ih (i + 1)
      simp only [itersAux, h, if_true]
      omega
    · simp [itersAux, h]

/-- At least one iteration runs when the cap is positive. -/
theorem itersAux_pos (crit : Nat → Critique) (rem i : Nat) (h : 1 ≤ rem) :
    1 ≤ itersAux crit i rem := by
  cases rem with
  | zero => omega
  | succ rem =>
    by_cases hc : continueCond (crit i) = true
    · simp only [itersAux, hc, if_true]
      omega
    · simp [itersAux, hc]

/-- If the loop stopped before exhausting its budget, the continuation test
failed at the stopping iteration. -/
theorem itersAux_stop (crit : Nat → Critique) :
    ∀ (rem i : Nat), itersAux crit i rem < rem →
      continueCond (crit (i + itersAux crit i rem - 1)) = false := by
  intro rem
  induction rem with
  | zero =>
    intro i h
    simp [itersAux] at h
  | succ rem ih =>
    intro i h
    by_cases hc : continueCond (crit i) = true
    · have hit : itersAux crit i (rem + 1) = 1 + itersAux crit (i + 1) rem := by
        simp [itersAux, hc]
      rw [hit] at h ⊢
      have hm : itersAux crit (i + 1) rem < rem := by omega
      have hrec := ih (i + 1) hm
      have he : i + (1 + itersAux crit (i + 1) rem) - 1
          = i + 1 + itersAux crit (i + 1) rem - 1 := by omega
      rw [he]
      exact hrec
    · have hit : itersAux crit i (rem + 1) = 1 := by
        simp [itersAux, hc]
      rw [hit]
      rw [Bool.not_eq_true] at hc
      simpa using hc

/-- Every iteration strictly before the stopping one passed the
continuation test. -/
theorem itersAux_before (crit : Nat → Critique) :
    ∀ (rem i j : Nat), j + 1 < itersAux crit i rem →
      continueCond (crit (i + j)) = true := by
  intro rem
  induction rem with
  | zero =>
    intro i j h
    simp [itersAux] at h
  | succ rem ih =>
    intro i j h
    by_cases hc : continueCond (crit i) = true
    · have hit : itersAux crit i (rem + 1) = 1 + itersAux crit (i + 1) rem := by
        simp [itersAux, hc]
      rw [hit] at h
      cases j with
      | zero => simpa using hc
      | succ j' =>
        have h' : j' + 1 < itersAux crit (i + 1) rem := by omega
        have hrec := ih (i + 1) j' h'
        have he : i + (j' + 1) = i + 1 + j' := by omega
        rw [he]
        exact hrec
    · have hit : itersAux crit i (rem + 1) = 1 := by
        simp [itersAux, hc]
      rw [hit] at h
      omega

/-- The continuation test holds iff suggestions are non-empty and the
revised description is present and non-empty. -/
theorem continueCond_eq_true_iff (c : Critique) :
    continueCond c = true ↔
      (c.critic_suggestions ≠ [] ∧ truthyStr c.revised_description = true) := by
  simp [continueCond, needs_revision, List.length_pos]

/-- The continuation test fails iff suggestions are empty or the revised
description is absent or empty. -/
theorem continueCond_eq_false_iff (c : Critique) :
    continueCond c = false ↔
      (c.critic_suggestions = [] ∨ truthyStr c.revised_description = false) := by
  rw [← Bool.not_eq_true, continueCond_eq_true_iff]
  rcases ht : truthyStr c.revised_description with _ | _ <;>
    rcases hs : c.critic_suggestions with _ | ⟨x, xs⟩ <;> simp

/-! ## Claim C1 (amended) -/

/-- C1 (amended): the refinement loop runs at most `K` iterations; it stops
at iteration `n < K` iff, at that iteration, the critic's suggestions are
empty or no non-empty revised description is present; every earlier
iteration had non-empty suggestions together with a non-empty revised
description, which the orchestrator adopts (via `step_description`, folded
by `descFrom`) before looping again. -/
theorem refinement_loop_stop (crit : Nat → Critique) (d : String) (K : Nat)
    (hK : 1 ≤ K) :
    ∃ n, generateLoop crit d K = (some n, descFrom crit d 0 n) ∧
      1 ≤ n ∧ n ≤ K ∧
      (n < K → ((crit (n - 1)).critic_suggestions = [] ∨
        truthyStr (crit (n - 1)).revised_description = false)) ∧
      (∀ j, j + 1 < n → ((crit j).critic_suggestions ≠ [] ∧
        truthyStr (crit j).revised_description = true)) := by
  have hK0 : K ≠ 0 := by omega
  refine ⟨itersAux crit 0 K, ?_, itersAux_pos crit K 0 hK, itersAux_le crit K 0, ?_, ?_⟩
  · rw [generateLoop_spec]
    simp [hK0]
  · intro hlt
    have h := itersAux_stop crit K 0 hlt
    rw [Nat.zero_add] at h
    exact (continueCond_eq_false_iff _).1 h
  · intro j hj
    have h := itersAux_before crit K 0 j hj
    rw [Nat.zero_add] at h
    exact (continueCond_eq_true_iff _).1 h

/-- Witness for C1 at a concrete input: one configured iteration, a critic
with no suggestions. -/
theorem refinement_loop_stop_witness :
    ∃ n, generateLoop noIssues "x" 1 = (some n, descFrom noIssues "x" 0 n) ∧
      1 ≤ n ∧ n ≤ 1 ∧
      (n < 1 → ((noIssues (n - 1)).critic_suggestions = [] ∨
        truthyStr (noIssues (n - 1)).revised_description = false)) ∧
      (∀ j, j + 1 < n → ((noIssues j).critic_suggestions ≠ [] ∧
        truthyStr (noIssues j).revised_description = true)) :=
  refinement_loop_stop noIssues "x" 1 (by decide)

/-- Counterexample to C1 as stated: with `K = 2` and a critic that returns
non-empty suggestions but no revised description at iteration 1, the loop
stops after iteration 1 (artifact `iter_1.png`, description unchanged)
even though the suggestions list is non-empty. -/
theorem refinement_loop_stop_counterexample :
    generateLoop complainNoRevision "d" 2 = (some 1, "d") ∧
    needs_revision (complainNoRevision 0) = true ∧
    (complainNoRevision 0).revised_description = none := by
  refine ⟨?_, rfl, rfl⟩
  rfl

/-! ## Claim C6 -/

/-- C6: the loop's final description is the `step_description` fold over
the executed iterations, and a step never replaces the current description
when the suggestions of that step are empty: a (non-null) revised
description is adopted only when the same step's suggestions are
non-empty. -/
theorem revised_adopted_only_with_suggestions (crit : Nat → Critique)
    (d : String) (K : Nat) :
    (generateLoop crit d K).2 = descFrom crit d 0 (itersAux crit 0 K) ∧
    (∀ c dcur, c.critic_suggestions = [] → step_description c dcur = dcur) ∧
    (∀ c dcur, step_description c dcur ≠ dcur → c.critic_suggestions ≠ []) := by
  refine ⟨?_, ?_, ?_⟩
  · rw [generateLoop_spec]
  · intro c dcur hc
    have h : continueCond c = false := (continueCond_eq_false_iff c).2 (Or.inl hc)
    simp [step_description, h]
  · intro c dcur h hc
    exact h (by simp [step_description, (continueCond_eq_false_iff c).2 (Or.inl hc)])

/-- Witness for C6: a critic result with empty suggestions but a present
revised description leaves the current description unchanged. -/
theorem revised_adopted_only_with_suggestions_witness :
    step_description (Critique.mk [] (some "rev")) "cur" = "cur" :=
  (revised_adopted_only_with_suggestions noIssues "cur" 1).2.1
    (Critique.mk [] (some "rev")) "cur" rfl

/-! ## Claim C7 -/

/-- C7: on an unparsable critic response, `critique` returns empty
suggestions and a null revised description; on parsed JSON lacking the
`critic_suggestions` key, the suggestions are treated as empty. -/
theorem critique_parse_fallback :
    critique CriticResponse.parseFailure = Critique.mk [] none ∧
    ∀ rd, critique (CriticResponse.parsed none rd) = Critique.mk [] rd :=
  ⟨rfl, fun _ => rfl⟩

/-! ## Claim C10 -/

/-- C10: with `iterations = 0` (modelling every `iterations ≤ 0`) the loop
body never runs and the final copy raises (`final_image_path` is `None`);
with `iterations = K ≥ 1` the final copy succeeds and copies the artifact
of the last executed iteration, whose index is `itersAux crit 0 K`, with
`1 ≤ itersAux crit 0 K ≤ K`. -/
theorem generate_iterations_precondition (crit : Nat → Critique) (d : String) :
    generate_result crit d 0 = Except.error () ∧
    ∀ K, 1 ≤ K → generate_result crit d K = Except.ok (itersAux crit 0 K) ∧
      1 ≤ itersAux crit 0 K ∧ itersAux crit 0 K ≤ K := by
  constructor
  · rfl
  · intro K hK
    refine ⟨?_, itersAux_pos crit K 0 hK, itersAux_le crit K 0⟩
    have hK0 : K ≠ 0 := by omega
    unfold generate_result
    rw [generateLoop_spec]
    simp [copy_final, hK0]

/-- Witness for C10 at a concrete input: three configured iterations with
an always-satisfied critic. -/
theorem generate_iterations_precondition_witness :
    generate_result noIssues "d" 3 = Except.ok (itersAux noIssues 0 3) ∧
    1 ≤ itersAux noIssues 0 3 ∧ itersAux noIssues 0 3 ≤ 3 :=
  (generate_iterations_precondition noIssues "d").2 3 (by decide)

/-! ## Lemmas about retrieval -/

/-- A successful dict lookup returns a candidate of the pool carrying
exactly the looked-up id. -/
theorem id_to_example_eq_some (cands : List Candidate) (eid : String)
    (c : Candidate) (h : id_to_example cands eid = some c) :
    c.id = eid ∧ c ∈ cands := by
  rw [id_to_example] at h
  have hbeq := List.find?_some h
  simp only [beq_iff_eq] at hbeq
  exact ⟨hbeq, List.mem_reverse.mp (List.mem_of_find?_eq_some h)⟩

/-- The dict lookup succeeds exactly when some pool candidate has the id. -/
theorem id_to_example_isSome_iff (cands : List Candidate) (eid : String) :
    (id_to_example cands eid).isSome ↔
      (cands.any fun cd => cd.id == eid) = true := by
  rw [id_to_example, List.find?_isSome, List.any_eq_true]
  constructor
  · rintro ⟨x, hx, hpx⟩
    exact ⟨x, List.mem_reverse.mp hx, hpx⟩
  · rintro ⟨x, hx, hpx⟩
    exact ⟨x, List.mem_reverse.mpr hx, hpx⟩

/-- The ids of the selected examples are exactly the model-listed ids that
occur in the pool, in the model's order (unknown ids dropped). -/
theorem filterMap_id_map (cands : List Candidate) :
    ∀ ids : List String,
      (ids.filterMap (id_to_example cands)).map Candidate.id =
        ids.filter fun eid => cands.any fun cd => cd.id == eid := by
  intro ids
  induction ids with
  | nil => rfl
  | cons e rest ih =>
    rcases h : id_to_example cands e with _ | c
    · have hp : ¬ ((cands.any fun cd => cd.id == e) = true) := by
        rw [← id_to_example_isSome_iff]
        simp [h]
      rw [Bool.not_eq_true] at hp
      simp [List.filterMap_cons, h, List.filter_cons, hp, ih]
    · have hid := (id_to_example_eq_some cands e c h).1
      have hp : (cands.any fun cd => cd.id == e) = true := by
        rw [← id_to_example_isSome_iff]
        simp [h]
      simp [List.filterMap_cons, h, List.filter_cons, hp, ih, hid]

/-- In the over-cap parsed-response branch, `retrieve` returns the looked-up
ids of the `or`-chain value, truncated to the cap, and issues a model call. -/
theorem retrieve_parsed_eq (candidates : List Candidate) (num_examples : Nat)
    (a b c3 : Option (List String))
    (hne : candidates.isEmpty = false)
    (hgt : ¬ candidates.length ≤ num_examples) :
    retrieve candidates num_examples (RetrieverResponse.parsed a b c3) =
      (((pyOrList a (pyOrList b (pyOrList c3 []))).filterMap
          (id_to_example candidates)).take num_examples, true) := by
  simp [retrieve, hne, hgt]

/-! ## Claim C3 -/

/-- C3: whenever the pool fits under the cap (including an empty pool),
`retrieve` returns the entire pool unchanged and in original order, for
every possible model response, and issues no model call. -/
theorem retrieve_passthrough (candidates : List Candidate) (num_examples : Nat)
    (response : RetrieverResponse) (h : candidates.length ≤ num_examples) :
    retrieve candidates num_examples response = (candidates, false) := by
  by_cases hc : candidates.isEmpty = true
  · have hnil : candidates = [] := by
      simpa using hc
    subst hnil
    rfl
  · simp [retrieve, hc, h]

/-- Witness for C3 at a concrete input: one candidate, cap ten. -/
theorem retrieve_passthrough_witness :
    retrieve [Candidate.mk "a" "c" "s"] 10 RetrieverResponse.parseFailure =
      ([Candidate.mk "a" "c" "s"], false) :=
  retrieve_passthrough [Candidate.mk "a" "c" "s"] 10
    RetrieverResponse.parseFailure (by decide)

/-! ## Claim C2 (amended) -/

/-- C2 (amended): with an over-cap pool, a model response that fails to
parse as JSON makes `retrieve` return the first `cap` candidates of the
pool in pool order; but a response that parses while the selected-ids key
is absent under all of its aliases makes `retrieve` return the empty
list, not the first `cap` candidates.  A model call is issued in both
cases. -/
theorem retrieve_fallback (candidates : List Candidate) (num_examples : Nat)
    (h : num_examples < candidates.length) :
    retrieve candidates num_examples RetrieverResponse.parseFailure =
      (candidates.take num_examples, true) ∧
    retrieve candidates num_examples (RetrieverResponse.parsed none none none) =
      ([], true) := by
  have hne : candidates.isEmpty = false := by
    rcases candidates with _ | ⟨c, cs⟩
    · simp at h
    · rfl
  have hgt : ¬ candidates.length ≤ num_examples := by omega
  constructor
  · simp [retrieve, hne, hgt]
  · rw [retrieve_parsed_eq candidates num_examples none none none hne hgt]
    simp [pyOrList]

/-- Witness for C2 at a concrete input: two candidates, cap one. -/
theorem retrieve_fallback_witness :
    retrieve [Candidate.mk "a" "" "", Candidate.mk "b" "" ""] 1
        RetrieverResponse.parseFailure =
      ([Candidate.mk "a" "" "", Candidate.mk "b" "" ""].take 1, true) ∧
    retrieve [Candidate.mk "a" "" "", Candidate.mk "b" "" ""] 1
        (RetrieverResponse.parsed none none none) =
      ([], true) :=
  retrieve_fallback [Candidate.mk "a" "" "", Candidate.mk "b" "" ""] 1 (by decide)

/-- Counterexample to C2 as stated: pool of two, cap one, response that
parses as an object with none of the alias keys: `retrieve` returns `[]`,
not the first `cap` candidates of the pool. -/
theorem retrieve_fallback_counterexample :
    retrieve [Candidate.mk "a" "" "", Candidate.mk "b" "" ""] 1
        (RetrieverResponse.parsed none none none) = ([], true) ∧
    [Candidate.mk "a" "" "", Candidate.mk "b" "" ""].take 1 =
      [Candidate.mk "a" "" ""] ∧
    ([] : List Candidate) ≠ [Candidate.mk "a" "" ""] := by
  refine ⟨rfl, rfl, by decide⟩

/-! ## Claim C4 -/

/-- C4: for every pool, cap and model response, `retrieve` returns only
candidates that exist in the pool (model-listed ids not in the pool are
silently dropped, never an error), at most `cap` of them; and in the
model-consulting case the ids of the result are exactly the model-listed
ids that exist in the pool, in the order the model listed them, truncated
to the cap. -/
theorem retrieve_result_sound (candidates : List Candidate) (num_examples : Nat)
    (response : RetrieverResponse) :
    (retrieve candidates num_examples response).1.length ≤ num_examples ∧
    (∀ c ∈ (retrieve candidates num_examples response).1, c ∈ candidates) ∧
    (∀ a b c3, response = RetrieverResponse.parsed a b c3 →
      num_examples < candidates.length →
      ((retrieve candidates num_examples response).1.map Candidate.id =
        ((pyOrList a (pyOrList b (pyOrList c3 []))).filter
          (fun eid => candidates.any fun cd => cd.id == eid)).take num_examples)) := by
  by_cases he : candidates.isEmpty = true
  · have hnil : candidates = [] := by simpa using he
    subst hnil
    refine ⟨by simp [retrieve], by simp [retrieve], ?_⟩
    intro a b c3 hr hlt
    simp at hlt
  · rw [Bool.not_eq_true] at he
    by_cases hle : candidates.length ≤ num_examples
    · refine ⟨?_, ?_, ?_⟩
      · simp [retrieve, he, hle]
      · intro c hc
        simpa [retrieve, he, hle] using hc
      · intro a b c3 hr hlt
        omega
    · rcases response with _ | ⟨a, b, c3⟩
      · have hret : retrieve candidates num_examples RetrieverResponse.parseFailure
            = (candidates.take num_examples, true) := by
          simp [retrieve, he, hle]
        refine ⟨?_, ?_, ?_⟩
        · rw [hret]
          exact List.length_take_le num_examples candidates
        · intro c hc
          rw [hret] at hc
          exact List.take_subset num_examples candidates hc
        · intro a b c3 hr hlt
          cases hr
      · have hret := retrieve_parsed_eq candidates num_examples a b c3 he hle
        refine ⟨?_, ?_, ?_⟩
        · rw [hret]
          exact List.length_take_le num_examples _
        · intro c hc
          rw [hret] at hc
          have hc' := List.take_subset num_examples _ hc
          rw [List.mem_filterMap] at hc'
          obtain ⟨eid, _, hsome⟩ := hc'
          exact (id_to_example_eq_some candidates eid c hsome).2
        · intro a' b' c3' hr hlt
          injection hr with h1 h2 h3
          subst h1
          subst h2
          subst h3
          rw [hret, List.map_take, filterMap_id_map]

/-- Witness for C4 at a concrete input: pool of two, cap one, model lists
an unknown id, then the two pool ids in reversed order; the unknown id is
dropped and the order of the surviving ids follows the model. -/
theorem retrieve_result_sound_witness :
    (retrieve [Candidate.mk "a" "" "", Candidate.mk "b" "" ""] 1
        (RetrieverResponse.parsed (some ["zz", "b", "a"]) none none)).1.map
      Candidate.id =
    ((pyOrList (some ["zz", "b", "a"]) (pyOrList none (pyOrList none []))).filter
      (fun eid => [Candidate.mk "a" "" "", Candidate.mk "b" "" ""].any
        fun cd => cd.id == eid)).take 1 :=
  (retrieve_result_sound [Candidate.mk "a" "" "", Candidate.mk "b" "" ""] 1
    (RetrieverResponse.parsed (some ["zz", "b", "a"]) none none)).2.2
    (some ["zz", "b", "a"]) none none rfl (by decide)

/-! ## Claim C5 -/

/-- C5: in plot mode, whenever the generated code's execution times out,
exits non-zero, or leaves no output file, the renderer does not raise: it
writes a blank placeholder image of the fixed default dimensions
(1024 x 768, white) to the target output path; and for every execution
outcome the render leaves a file at the output path. -/
theorem plot_render_placeholder (resp code : List Char) (path : String)
    (fs : FS) (hx : extract_code resp = Except.ok code) :
    (∀ exec : ExecOutcome,
      (exec = ExecOutcome.timeout ∨
        ∃ rc ex, exec = ExecOutcome.exited rc ex ∧ (rc ≠ 0 ∨ ex = false)) →
      ∃ fs', generate_plot resp path exec fs = Except.ok fs' ∧
        fs' path = some (Artifact.placeholder 1024 768 255 255 255)) ∧
    (∀ exec : ExecOutcome,
      ∃ fs', generate_plot resp path exec fs = Except.ok fs' ∧
        (fs' path).isSome = true) := by
  constructor
  · intro exec hfail
    have hexec : execute_plot_code exec = false := by
      rcases hfail with h | ⟨rc, ex, h, hrc⟩
      · subst h
        rfl
      · subst h
        rcases hrc with hrc | hrc
        · simp [execute_plot_code, hrc]
        · subst hrc
          simp [execute_plot_code, ite_self]
    refine ⟨fun p =>
        if p = path then some (Artifact.placeholder 1024 768 255 255 255)
        else fs p, ?_, ?_⟩
    · unfold generate_plot
      rw [hx]
      simp [hexec]
    · simp
  · intro exec
    by_cases hexec : execute_plot_code exec = true
    · refine ⟨fun p => if p = path then some Artifact.executed else fs p, ?_, ?_⟩
      · unfold generate_plot
        rw [hx]
        simp [hexec]
      · simp
    · rw [Bool.not_eq_true] at hexec
      refine ⟨fun p =>
          if p = path then some (Artifact.placeholder 1024 768 255 255 255)
          else fs p, ?_, ?_⟩
      · unfold generate_plot
        rw [hx]
        simp [hexec]
      · simp

/-- Witness for C5 at a concrete input: a fence-free code response, a
timeout, an empty filesystem. -/
theorem plot_render_placeholder_witness :
    ∃ fs', generate_plot ("plt".toList) "out.png" ExecOutcome.timeout
        (fun _ => none) = Except.ok fs' ∧
      fs' "out.png" = some (Artifact.placeholder 1024 768 255 255 255) :=
  (plot_render_placeholder ("plt".toList) ("plt".toList) "out.png"
      (fun _ => none) rfl).1 ExecOutcome.timeout (Or.inl rfl)

/-! ## Claim C9 -/

/-- C9: a model response consisting of a single fence marker (one
occurrence of three backticks, never closed) makes `_extract_code` raise
an uncaught `ValueError` from `str.index`, and the plot renderer then
aborts for every output path, execution outcome and filesystem, writing
neither a real artifact nor a placeholder. -/
theorem extract_code_unclosed_fence :
    extract_code ("```".toList) = Except.error () ∧
    ∀ (path : String) (exec : ExecOutcome) (fs : FS),
      generate_plot ("```".toList) path exec fs = Except.error () := by
  have h : extract_code ("```".toList) = Except.error () := rfl
  refine ⟨h, ?_⟩
  intro path exec fs
  unfold generate_plot
  rw [h]

/-! ## Lemmas about substring search -/

/-- Searching one position further into a cons. -/
theorem occursAt_cons (pat : List Char) (c : Char) (rest : List Char) (i : Nat) :
    occursAt pat (c :: rest) (i + 1) = occursAt pat rest i := by
  rw [occursAt, occursAt, List.drop_succ_cons]

/-- An occurrence in a suffix is an occurrence in the whole, shifted. -/
theorem occursAt_drop (pat s : List Char) (a k : Nat) :
    occursAt pat (s.drop a) k = occursAt pat s (a + k) := by
  rw [occursAt, occursAt, List.drop_drop]

/-- An occurrence of the python fence is an occurrence of the bare fence. -/
theorem occursAt_py_imp_f3 (s : List Char) (i : Nat)
    (h : occursAt ("```python".toList) s i = true) :
    occursAt ("```".toList) s i = true := by
  rw [occursAt, List.isPrefixOf_iff_prefix] at h ⊢
  exact List.IsPrefix.trans (by decide) h

/-- `findSub` returns the position of an occurrence that is minimal. -/
theorem findSub_of_minimal (pat : List Char) :
    ∀ (s : List Char) (i : Nat), occursAt pat s i = true →
      (∀ j, j < i → occursAt pat s j = false) → findSub pat s = some i := by
  intro s
  induction s with
  | nil =>
    intro i hocc hmin
    have hpre : pat.isPrefixOf ([] : List Char) = true := by
      simpa [occursAt] using hocc
    cases i with
    | zero => simp [findSub, hpre]
    | succ i' =>
      exfalso
      have h0 := hmin 0 (Nat.succ_pos i')
      rw [occursAt, List.drop_zero] at h0
      simp [h0] at hpre
  | cons c rest ih =>
    intro i hocc hmin
    cases i with
    | zero =>
      rw [occursAt, List.drop_zero] at hocc
      simp [findSub, hocc]
    | succ i' =>
      have h0 := hmin 0 (Nat.succ_pos i')
      rw [occursAt, List.drop_zero] at h0
      have hocc' : occursAt pat rest i' = true := by
        rw [← occursAt_cons pat c rest i']
        exact hocc
      have hmin' : ∀ j, j < i' → occursAt pat rest j = false := by
        intro j hj
        rw [← occursAt_cons pat c rest j]
        exact hmin (j + 1) (by omega)
      simp [findSub, h0, ih i' hocc' hmin']

/-- `findSub` fails when the pattern occurs nowhere. -/
theorem findSub_none_of (pat : List Char) :
    ∀ s : List Char, (∀ i, occursAt pat s i = false) → findSub pat s = none := by
  intro s
  induction s with
  | nil =>
    intro h
    have h0 := h 0
    rw [occursAt, List.drop_zero] at h0
    simp [findSub, h0]
  | cons c rest ih =>
    intro h
    have h0 := h 0
    rw [occursAt, List.drop_zero] at h0
    have hrest : ∀ i, occursAt pat rest i = false := by
      intro i
      rw [← occursAt_cons pat c rest i]
      exact h (i + 1)
    simp [findSub, h0, ih hrest]

/-! ## Branch equations of `extract_code` -/

/-- Python-fence branch with a closing fence. -/
theorem extract_code_py_closed (response : List Char) (i k : Nat)
    (h1 : findSub ("```python".toList) response = some i)
    (h2 : findSub ("```".toList) (response.drop (i + 9)) = some k) :
    extract_code response =
      Except.ok (pyStrip ((response.drop (i + 9)).take k)) := by
  have hlen : ("```python".toList).length = 9 := rfl
  simp only [extract_code, h1, hlen, h2]

/-- Python-fence branch without a closing fence: the `ValueError`. -/
theorem extract_code_py_unclosed (response : List Char) (i : Nat)
    (h1 : findSub ("```python".toList) response = some i)
    (h2 : findSub ("```".toList) (response.drop (i + 9)) = none) :
    extract_code response = Except.error () := by
  have hlen : ("```python".toList).length = 9 := rfl
  simp only [extract_code, h1, hlen, h2]

/-- Bare-fence branch with a closing fence. -/
theorem extract_code_bare_closed (response : List Char) (i k : Nat)
    (h0 : findSub ("```python".toList) response = none)
    (h1 : findSub ("```".toList) response = some i)
    (h2 : findSub ("```".toList) (response.drop (i + 3)) = some k) :
    extract_code response =
      Except.ok (pyStrip ((response.drop (i + 3)).take k)) := by
  simp only [extract_code, h0, h1, h2]

/-- Bare-fence branch without a closing fence: the `ValueError`. -/
theorem extract_code_bare_unclosed (response : List Char) (i : Nat)
    (h0 : findSub ("```python".toList) response = none)
    (h1 : findSub ("```".toList) response = some i)
    (h2 : findSub ("```".toList) (response.drop (i + 3)) = none) :
    extract_code response = Except.error () := by
  simp only [extract_code, h0, h1, h2]

/-- No fence markers: fall back to the whole (stripped) response. -/
theorem extract_code_nofence (response : List Char)
    (h0 : findSub ("```python".toList) response = none)
    (h1 : findSub ("```".toList) response = none) :
    extract_code response = Except.ok (pyStrip response) := by
  simp only [extract_code, h0, h1]

/-! ## Claim C8 (amended) -/

/-- C8 (amended): code extraction behaves as follows, case by case on the
fence markers of the response.  With no occurrence of the fence marker at
all, it returns the whitespace-stripped full response.  With a first
occurrence of the python fence at `i`: if a closing fence follows at the
first position `j ≥ i + 9`, it returns the stripped text strictly between
them; if none follows, it raises.  With no python fence but a first bare
fence at `i`: if a closing fence follows at the first position
`j ≥ i + 3`, it returns the stripped text strictly between them; if none
follows, it raises.  The python fence is preferred over the bare fence. -/
theorem extract_code_spec (response : List Char) :
    ((∀ i, occursAt ("```".toList) response i = false) →
      extract_code response = Except.ok (pyStrip response)) ∧
    (∀ i j, occursAt ("```python".toList) response i = true →
      (∀ i', i' < i → occursAt ("```python".toList) response i' = false) →
      i + 9 ≤ j → occursAt ("```".toList) response j = true →
      (∀ j', j' < j → i + 9 ≤ j' → occursAt ("```".toList) response j' = false) →
      extract_code response =
        Except.ok (pyStrip ((response.drop (i + 9)).take (j - (i + 9))))) ∧
    (∀ i, occursAt ("```python".toList) response i = true →
      (∀ i', i' < i → occursAt ("```python".toList) response i' = false) →
      (∀ j, i + 9 ≤ j → occursAt ("```".toList) response j = false) →
      extract_code response = Except.error ()) ∧
    (∀ i j, (∀ i', occursAt ("```python".toList) response i' = false) →
      occursAt ("```".toList) response i = true →
      (∀ i', i' < i → occursAt ("```".toList) response i' = false) →
      i + 3 ≤ j → occursAt ("```".toList) response j = true →
      (∀ j', j' < j → i + 3 ≤ j' → occursAt ("```".toList) response j' = false) →
      extract_code response =
        Except.ok (pyStrip ((response.drop (i + 3)).take (j - (i + 3))))) ∧
    (∀ i, (∀ i', occursAt ("```python".toList) response i' = false) →
      occursAt ("```".toList) response i = true →
      (∀ i', i' < i → occursAt ("```".toList) response i' = false) →
      (∀ j, i + 3 ≤ j → occursAt ("```".toList) response j = false) →
      extract_code response = Except.error ()) := by
  refine ⟨?_, ?_, ?_, ?_, ?_⟩
  · intro h
    have hpy : ∀ i', occursAt ("```python".toList) response i' = false := by
      intro i'
      by_cases hp : occursAt ("```python".toList) response i' = true
      · have h3 := occursAt_py_imp_f3 response i' hp
        rw [h i'] at h3
        exact absurd h3 Bool.false_ne_true
      · rw [Bool.not_eq_true] at hp
        exact hp
    exact extract_code_nofence response
      (findSub_none_of _ response hpy) (findSub_none_of _ response h)
  · intro i j hocc hmin hle hcl hmincl
    have h1 := findSub_of_minimal _ response i hocc hmin
    have h2 : findSub ("```".toList) (response.drop (i + 9)) = some (j - (i + 9)) := by
      apply findSub_of_minimal
      · rw [occursAt_drop]
        have he : i + 9 + (j - (i + 9)) = j := by omega
        rw [he]
        exact hcl
      · intro k hk
        rw [occursAt_drop]
        exact hmincl (i + 9 + k) (by omega) (by omega)
    exact extract_code_py_closed response i (j - (i + 9)) h1 h2
  · intro i hocc hmin hnone
    have h1 := findSub_of_minimal _ response i hocc hmin
    have h2 : findSub ("```".toList) (response.drop (i + 9)) = none := by
      apply findSub_none_of
      intro k
      rw [occursAt_drop]
      exact hnone (i + 9 + k) (by omega)
    exact extract_code_py_unclosed response i h1 h2
  · intro i j hpy hocc hmin hle hcl hmincl
    have h0 := findSub_none_of _ response hpy
    have h1 := findSub_of_minimal _ response i hocc hmin
    have h2 : findSub ("```".toList) (response.drop (i + 3)) = some (j - (i + 3)) := by
      apply findSub_of_minimal
      · rw [occursAt_drop]
        have he : i + 3 + (j - (i + 3)) = j := by omega
        rw [he]
        exact hcl
      · intro k hk
        rw [occursAt_drop]
        exact hmincl (i + 3 + k) (by omega) (by omega)
    exact extract_code_bare_closed response i (j - (i + 3)) h0 h1 h2
  · intro i hpy hocc hmin hnone
    have h0 := findSub_none_of _ response hpy
    have h1 := findSub_of_minimal _ response i hocc hmin
    have h2 : findSub ("```".toList) (response.drop (i + 3)) = none := by
      apply findSub_none_of
      intro k
      rw [occursAt_drop]
      exact hnone (i + 3 + k) (by omega)
    exact extract_code_bare_unclosed response i h0 h1 h2

/-- Witness for C8 at a concrete input: python fence at index 1, closing
fence at index 15, content stripped to the code line. -/
theorem extract_code_spec_witness :
    extract_code ("a```python\nx=1\n```end".toList) =
      Except.ok (pyStrip ((("a```python\nx=1\n```end".toList).drop (1 + 9)).take
        (15 - (1 + 9)))) :=
  (extract_code_spec ("a```python\nx=1\n```end".toList)).2.1 1 15
    (by decide) (by decide) (by decide) (by decide) (by decide)

/-- Counterexample to C8 as stated: on a fence-free response the extractor
returns the whitespace-stripped text, not the full response text; and on a
lone un-closed fence it raises instead of returning anything. -/
theorem extract_code_counterexample :
    extract_code (" x ".toList) = Except.ok ("x".toList) ∧
    ("x".toList : List Char) ≠ " x ".toList ∧
    extract_code ("```".toList) = Except.error () := by
  refine ⟨rfl, by decide, rfl⟩
